import Mathlib

/-!
Shallow embedding of the chat-backend conversation & message visibility
subsystem (src/src/routes/messages.ts, src/src/routes/conversations.ts).
Database tables are lists of rows; the list order models the order rows
arrive from storage. Timestamps and ids are naturals; request handlers
are pure functions from a state (plus request parameters and the current
time) to a new state and an `Except` result, mirroring the HTTP status
codes (403 notAuthorized, 400 invalidOperation, 404 notFound, 500
internal).
-/

namespace Chat

/-- Message kinds, matching the `type` column values TEXT / IMAGE / FILE. -/
inductive MsgType
  | TEXT
  | IMAGE
  | FILE
deriving DecidableEq, BEq, Repr

/-- Row of the Message table (columns used by the routes under test). -/
structure Message where
  id : Nat
  conversationId : Nat
  senderId : Nat
  content : Option String
  type : MsgType
  fileUrl : Option String
  fileName : Option String
  createdAt : Nat
  deletedAt : Option Nat
  groupId : Option Nat
deriving DecidableEq, Repr

/-- Row of the Participant table: (conversationId, userId) membership pair. -/
structure Participant where
  conversationId : Nat
  userId : Nat
deriving DecidableEq, Repr

/-- Row of the Conversation table. -/
structure Conversation where
  id : Nat
  isGroup : Bool
  createdAt : Nat
  createdById : Nat
deriving DecidableEq, Repr

/-- Row of the ConversationHide table; `hiddenAt` has a DB default of the
current timestamp and `visibleFrom` is nullable. -/
structure ConversationHide where
  conversationId : Nat
  userId : Nat
  hiddenAt : Nat
  visibleFrom : Option Nat
deriving DecidableEq, Repr

/-- Row of the MessageHide table: this message is invisible to this user. -/
structure MessageHide where
  messageId : Nat
  userId : Nat
deriving DecidableEq, Repr

/-- Row of the MessageRead table; unique on (messageId, userId). -/
structure MessageRead where
  messageId : Nat
  userId : Nat
  readAt : Nat
deriving DecidableEq, Repr

/-- The persistent state: one list per table, in storage arrival order. -/
structure State where
  conversations : List Conversation
  participants : List Participant
  messages : List Message
  conversationHides : List ConversationHide
  messageHides : List MessageHide
  messageReads : List MessageRead
deriving DecidableEq, Repr

/-- Error kinds surfaced by the handlers as HTTP status codes. -/
inductive ApiError
  | notAuthorized
  | invalidOperation
  | notFound
  | internal
deriving DecidableEq, Repr

instance {ε α : Type} [DecidableEq ε] [DecidableEq α] : DecidableEq (Except ε α) := fun x y =>
  match x, y with
  | .ok a, .ok b =>
    if h : a = b then .isTrue (by rw [h])
    else .isFalse (by intro hc; injection hc; exact h (by assumption))
  | .error a, .error b =>
    if h : a = b then .isTrue (by rw [h])
    else .isFalse (by intro hc; injection hc; exact h (by assumption))
  | .ok _, .error _ => .isFalse (by intro hc; cases hc)
  | .error _, .ok _ => .isFalse (by intro hc; cases hc)

/-- Model of the JavaScript `String.prototype.trim`: strip leading and
trailing whitespace (kept executable so that concrete requests evaluate). -/
def jsTrim (s : String) : String :=
  String.mk (((s.toList.dropWhile Char.isWhitespace).reverse.dropWhile
    Char.isWhitespace).reverse)

/-- Stable insertion step for descending order by `key`: the new element is
placed before the first element whose key is at most its own, so elements
with equal keys keep their original relative order (JS `Array.prototype.sort`
is stable per ES2019, and the database ORDER BY is modelled the same way). -/
def insertDescBy (key : α → Nat) (x : α) : List α → List α
  | [] => [x]
  | y :: ys => if key y ≤ key x then x :: y :: ys else y :: insertDescBy key x ys

/-- Stable sort, descending by `key`: models `orderBy { ... : 'desc' }` and the
JS comparator `(a, b) => keyB - keyA`. -/
def sortDescBy (key : α → Nat) : List α → List α
  | [] => []
  | x :: xs => insertDescBy key x (sortDescBy key xs)

/-- Membership test of `prisma.participant.findUnique({ conversationId, userId })`. -/
def isParticipant (s : State) (cid uid : Nat) : Bool :=
  s.participants.any (fun p => p.conversationId == cid && p.userId == uid)

/-- Lookup of `prisma.conversationHide.findUnique({ conversationId, userId })`. -/
def findConversationHide (s : State) (cid uid : Nat) : Option ConversationHide :=
  s.conversationHides.find? (fun h => h.conversationId == cid && h.userId == uid)

/-- Does the user have a MessageHide row for this message
(`hides: { none: { userId } }` is its negation)? -/
def hiddenByUser (s : State) (uid mid : Nat) : Bool :=
  s.messageHides.any (fun h => h.messageId == mid && h.userId == uid)

/-- The conditional window filter of the history read: applied only when the
caller has a hide record whose `visibleFrom` is non-null (the spread
`...(hideRecord?.visibleFrom && { createdAt: { gte: hideRecord.visibleFrom } })`). -/
def windowOk (s : State) (cid uid : Nat) (m : Message) : Bool :=
  match (findConversationHide s cid uid).bind (fun h => h.visibleFrom) with
  | some vf => decide (vf ≤ m.createdAt)
  | none => true

/-- The WHERE clause of the history read of GET /api/messages/:conversationId:
messages of the conversation, not individually hidden by the caller, and inside
the caller's visibility window when one is set. Note that `deletedAt` is not
consulted here. -/
def visibleMessages (s : State) (uid cid : Nat) : List Message :=
  s.messages.filter (fun m =>
    m.conversationId == cid &&
    !hiddenByUser s uid m.id &&
    windowOk s cid uid m)

/-- Fixed page size of the history read (`const limit = 30`). -/
def pageLimit : Nat := 30

/-- Cursor slice of the ordered (descending) message list: with no cursor take
the first `pageLimit`; with a cursor, position at the row with that id
(`cursor: { id }`), skip it (`skip: 1`) and take `pageLimit` from there. -/
def pageSlice (l : List Message) : Option Nat → List Message
  | none => l.take pageLimit
  | some c => ((l.dropWhile (fun m => m.id != c)).drop 1).take pageLimit

/-- Is the (messageId, userId) pair present among the MessageRead rows
(`reads` relation membership)? -/
def hasRead (reads : List MessageRead) (mid uid : Nat) : Bool :=
  reads.any (fun r => r.messageId == mid && r.userId == uid)

/-- Model of `createMany({ data: rows, skipDuplicates: true })` against the
unique (messageId, userId) index: each row is appended unless the pair is
already present. -/
def insertReads (reads : List MessageRead) (rows : List MessageRead) : List MessageRead :=
  rows.foldl (fun acc r =>
    if hasRead acc r.messageId r.userId then acc else acc ++ [r]) reads

/-- Response shape of the history read: the page in ascending order plus a
nullable cursor for the next page. -/
structure PageResult where
  pageMessages : List Message
  nextCursor : Option Nat
deriving DecidableEq, Repr

/-- Handler of GET /api/messages/:conversationId: participant check, visibility
filter, descending order, cursor slice; as a side effect, a MessageRead row is
inserted (duplicate-safe) for every fetched message not sent by the caller and
not already read; the page is reversed to ascending order and the next cursor
is the first element of the reversed page when the page is full. -/
def listMessagesPage (s : State) (uid cid : Nat) (cursor : Option Nat) (now : Nat) :
    State × Except ApiError PageResult :=
  if isParticipant s cid uid then
    let msgs := pageSlice (sortDescBy (fun m => m.createdAt) (visibleMessages s uid cid)) cursor
    let unread := msgs.filter (fun m =>
      m.senderId != uid && !hasRead s.messageReads m.id uid)
    let s' := { s with
      messageReads := insertReads s.messageReads
        (unread.map (fun m => { messageId := m.id, userId := uid, readAt := now })) }
    let rev := msgs.reverse
    (s', .ok { pageMessages := rev,
               nextCursor := if rev.length == pageLimit
                             then rev.head?.map (fun m => m.id) else none })
  else
    (s, .error .notAuthorized)

/-- Uploaded file of a send request; `url` stands for the reference returned
by the external blob store for this file. -/
structure FileInput where
  originalname : String
  isImage : Bool
  size : Nat
  url : String
deriving DecidableEq, Repr

/-- JS truthiness of the `content` body field: present and not the empty
string (`!content` fails the request only in those cases). -/
def truthy : Option String → Bool
  | none => false
  | some s => s != ""

/-- Message row created for one uploaded file inside the send handler loop. -/
def mkFileMessage (cid uid gid : Nat) (f : FileInput) (mid t : Nat) : Message :=
  { id := mid, conversationId := cid, senderId := uid, content := none,
    type := if f.isImage then .IMAGE else .FILE, fileUrl := some f.url,
    fileName := some f.originalname, createdAt := t, deletedAt := none,
    groupId := some gid }

/-- The list of message rows created by one send request: one row per uploaded
file (sharing `groupId` when files are present), then one TEXT row when the
trimmed content is non-empty. Fresh ids start at `fid` and creation timestamps
at `now`, increasing per sequential insert. -/
def createdMessages (cid uid : Nat) (content : Option String) (files : List FileInput)
    (gid fid now : Nat) : List Message :=
  let fileMsgs := files.enum.map (fun p => mkFileMessage cid uid gid p.2 (fid + p.1) (now + p.1))
  match content with
  | some c =>
    if jsTrim c != "" then
      fileMsgs ++ [{ id := fid + files.length, conversationId := cid, senderId := uid,
                     content := some (jsTrim c), type := .TEXT, fileUrl := none, fileName := none,
                     createdAt := now + files.length, deletedAt := none,
                     groupId := if files.length > 0 then some gid else none }]
    else fileMsgs
  | none => fileMsgs

/-- First `updateMany` of the send handler: hide records of the sender for this
conversation whose `visibleFrom` is null get `visibleFrom := t`. -/
def updateHidesForSender (hides : List ConversationHide) (cid uid t : Nat) :
    List ConversationHide :=
  hides.map (fun h =>
    if h.conversationId == cid && h.userId == uid && h.visibleFrom == none
    then { h with visibleFrom := some t } else h)

/-- Second `updateMany` of the send handler: hide records of every other user
for this conversation whose `visibleFrom` is null get `visibleFrom := t`. -/
def updateHidesForOthers (hides : List ConversationHide) (cid uid t : Nat) :
    List ConversationHide :=
  hides.map (fun h =>
    if h.conversationId == cid && h.userId != uid && h.visibleFrom == none
    then { h with visibleFrom := some t } else h)

/-- Handler of POST /api/messages/:conversationId: participant check, required
field check (`!content && no files`), creation of the file and text rows, then
the two `updateMany` calls keyed on `messages[0].createdAt`. When no row was
created (whitespace-only content with no files), the JS expression
`messages[0].createdAt` reads a property of `undefined`, the thrown TypeError
is caught, and the handler answers 500 Internal with no state change. -/
def sendMessage (s : State) (uid cid : Nat) (content : Option String) (files : List FileInput)
    (gid fid now : Nat) : State × Except ApiError (List Message) :=
  if ¬ isParticipant s cid uid then (s, .error .notAuthorized)
  else if truthy content = false ∧ files = [] then (s, .error .invalidOperation)
  else
    let msgs := createdMessages cid uid content files gid fid now
    let s1 := { s with messages := s.messages ++ msgs }
    match msgs with
    | [] => (s1, .error .internal)
    | m0 :: _ =>
      let hides1 := updateHidesForSender s1.conversationHides cid uid m0.createdAt
      let hides2 := updateHidesForOthers hides1 cid uid m0.createdAt
      ({ s1 with conversationHides := hides2 }, .ok msgs)

/-- Upsert of DELETE /api/conversations/:conversationId on the unique
(conversationId, userId) key: update sets `hiddenAt := now` and resets
`visibleFrom` to null; create inserts a fresh record with null `visibleFrom`
(`hiddenAt` takes the DB default, the current timestamp). -/
def upsertConversationHide (hides : List ConversationHide) (cid uid now : Nat) :
    List ConversationHide :=
  if hides.any (fun h => h.conversationId == cid && h.userId == uid) then
    hides.map (fun h =>
      if h.conversationId == cid && h.userId == uid
      then { h with hiddenAt := now, visibleFrom := none } else h)
  else
    hides ++ [{ conversationId := cid, userId := uid, hiddenAt := now, visibleFrom := none }]

/-- Handler of DELETE /api/conversations/:conversationId (hide conversation):
participant check, then the upsert above. -/
def hideConversation (s : State) (uid cid now : Nat) : State × Except ApiError Unit :=
  if ¬ isParticipant s cid uid then (s, .error .notAuthorized)
  else ({ s with conversationHides := upsertConversationHide s.conversationHides cid uid now },
        .ok ())

/-- Handler of POST /api/messages/:messageId/hide: 404 when the message is
absent, 400 when the caller is its sender, otherwise an idempotent upsert of
the (messageId, userId) MessageHide row (the update branch changes nothing). -/
def hideMessage (s : State) (uid mid : Nat) : State × Except ApiError Unit :=
  match s.messages.find? (fun m => m.id == mid) with
  | none => (s, .error .notFound)
  | some m =>
    if m.senderId == uid then (s, .error .invalidOperation)
    else
      let hides :=
        if s.messageHides.any (fun h => h.messageId == mid && h.userId == uid)
        then s.messageHides
        else s.messageHides ++ [{ messageId := mid, userId := uid }]
      ({ s with messageHides := hides }, .ok ())

/-- Latest non-deleted message of a conversation: the `lastMessageInclude`
sub-query (where `deletedAt` null, order by `createdAt` desc, take 1). -/
def latestNonDeleted (s : State) (cid : Nat) : Option Message :=
  (sortDescBy (fun m => m.createdAt)
    (s.messages.filter (fun m => m.conversationId == cid && m.deletedAt == none))).head?

/-- One entry of the conversation list response. -/
structure ConvEntry where
  conv : Conversation
  preview : Option Message
  unreadCount : Nat
deriving DecidableEq, Repr

/-- Sort key of the final conversation-list sort: preview timestamp when a
preview survived, else the conversation's own creation timestamp
(`a.messages[0]?.createdAt ?? a.createdAt`). -/
def convSortKey (e : ConvEntry) : Nat :=
  match e.preview with
  | some m => m.createdAt
  | none => e.conv.createdAt

/-- Handler of GET /api/conversations: exclude conversations hidden with null
`visibleFrom`; for restarted (windowed) ones suppress the preview when it
predates `visibleFrom` and count unread only at or after `visibleFrom`; sort
descending by preview-else-creation timestamp with a stable sort (ties keep
the order rows arrived from storage; there is no id tie-break). -/
def listConversations (s : State) (uid : Nat) : List ConvEntry :=
  let hides := s.conversationHides.filter (fun h => h.userId == uid)
  let trulyHidden := (hides.filter (fun h => h.visibleFrom == none)).map
    (fun h => h.conversationId)
  let convs := sortDescBy (fun c => c.createdAt)
    (s.conversations.filter (fun c =>
      s.participants.any (fun p => p.conversationId == c.id && p.userId == uid) &&
      !trulyHidden.contains c.id))
  let entries := convs.map (fun c =>
    let visibleFrom := ((hides.filter (fun h => !(h.visibleFrom == none))).find?
      (fun h => h.conversationId == c.id)).bind (fun h => h.visibleFrom)
    let last := latestNonDeleted s c.id
    let preview :=
      match visibleFrom, last with
      | some vf, some m => if m.createdAt < vf then none else some m
      | _, lastm => lastm
    let unreadCount := (s.messages.filter (fun m =>
      m.conversationId == c.id && m.senderId != uid && m.deletedAt == none &&
      !hasRead s.messageReads m.id uid &&
      (match visibleFrom with | some vf => decide (vf ≤ m.createdAt) | none => true))).length
    { conv := c, preview := preview, unreadCount := unreadCount })
  sortDescBy convSortKey entries

/-- Handler of GET /api/messages/:conversationId/attachments: participant
check, then all IMAGE/FILE messages of the conversation that are not
soft-deleted and carry a file reference, newest first. Neither the caller's
MessageHide rows nor the `visibleFrom` window are consulted. -/
def listAttachments (s : State) (uid cid : Nat) : Except ApiError (List Message) :=
  if ¬ isParticipant s cid uid then .error .notAuthorized
  else
    .ok (sortDescBy (fun m => m.createdAt)
      (s.messages.filter (fun m =>
        m.conversationId == cid &&
        (m.type == MsgType.IMAGE || m.type == MsgType.FILE) &&
        m.deletedAt == none &&
        !(m.fileUrl == none))))

/-! Helper lemmas about the sort, slice and read-insertion primitives. -/

theorem mem_insertDescBy {α : Type} (key : α → Nat) (x : α) (l : List α) (z : α) :
    z ∈ insertDescBy key x l ↔ z = x ∨ z ∈ l := by
  induction l with
  | nil => simp [insertDescBy]
  | cons y ys ih =>
    by_cases h : key y ≤ key x
    · simp [insertDescBy, h]
    · simp only [insertDescBy, if_neg h, List.mem_cons, ih]
      tauto

theorem mem_sortDescBy {α : Type} (key : α → Nat) (l : List α) (z : α) :
    z ∈ sortDescBy key l ↔ z ∈ l := by
  induction l with
  | nil => simp [sortDescBy]
  | cons y ys ih => simp [sortDescBy, mem_insertDescBy, ih]

theorem pairwise_insertDescBy {α : Type} (key : α → Nat) (x : α) (l : List α)
    (hl : l.Pairwise (fun a b => key b ≤ key a)) :
    (insertDescBy key x l).Pairwise (fun a b => key b ≤ key a) := by
  induction l with
  | nil => simp [insertDescBy]
  | cons y ys ih =>
    rcases List.pairwise_cons.mp hl with ⟨hy, hys⟩
    by_cases h : key y ≤ key x
    · rw [insertDescBy, if_pos h]
      refine List.pairwise_cons.mpr ⟨?_, hl⟩
      intro z hz
      rcases List.mem_cons.mp hz with rfl | hz
      · exact h
      · exact le_trans (hy z hz) h
    · rw [insertDescBy, if_neg h]
      refine List.pairwise_cons.mpr ⟨?_, ih hys⟩
      intro z hz
      rcases (mem_insertDescBy key x ys z).mp hz with rfl | hz
      · exact le_of_lt (lt_of_not_le h)
      · exact hy z hz

theorem pairwise_sortDescBy {α : Type} (key : α → Nat) (l : List α) :
    (sortDescBy key l).Pairwise (fun a b => key b ≤ key a) := by
  induction l with
  | nil => simp [sortDescBy]
  | cons y ys ih => exact pairwise_insertDescBy key y (sortDescBy key ys) ih

theorem pageSlice_subset (l : List Message) (c : Option Nat) : pageSlice l c ⊆ l := by
  cases c with
  | none => exact List.take_subset _ _
  | some cv =>
    intro m hm
    have h1 := List.take_subset pageLimit _ hm
    have h2 := List.drop_subset 1 _ h1
    exact (List.dropWhile_sublist _).subset h2

theorem visibleMessages_subset (s : State) (uid cid : Nat) :
    visibleMessages s uid cid ⊆ s.messages := by
  intro m hm
  exact (List.mem_filter.mp hm).1

theorem hasRead_append (a b : List MessageRead) (mid uid : Nat) :
    hasRead (a ++ b) mid uid = (hasRead a mid uid || hasRead b mid uid) := by
  simp [hasRead, List.any_append]

theorem hasRead_insertReads (rows base : List MessageRead) (mid uid : Nat) :
    hasRead (insertReads base rows) mid uid =
      (hasRead base mid uid ||
        rows.any (fun r => r.messageId == mid && r.userId == uid)) := by
  induction rows generalizing base with
  | nil => simp [insertReads]
  | cons r rs ih =>
    have step : insertReads base (r :: rs) =
        insertReads (if hasRead base r.messageId r.userId then base else base ++ [r]) rs := by
      simp [insertReads]
    rw [step, ih]
    by_cases hc : hasRead base r.messageId r.userId = true
    · rw [if_pos hc]
      by_cases hp : (r.messageId == mid && r.userId == uid) = true
      · have hpair : (r.messageId == mid) = true ∧ (r.userId == uid) = true := by
          have h0 := hp
          rw [Bool.and_eq_true] at h0
          exact h0
        have h1 : r.messageId = mid := by
          have := hpair.1
          simpa using this
        have h2 : r.userId = uid := by
          have := hpair.2
          simpa using this
        have hb : hasRead base mid uid = true := by rw [← h1, ← h2]; exact hc
        simp [hb, hp]
      · have hfalse : (r.messageId == mid && r.userId == uid) = false :=
          Bool.eq_false_iff.mpr hp
        simp [List.any_cons, hfalse]
    · rw [if_neg hc, hasRead_append]
      have hr : hasRead [r] mid uid = (r.messageId == mid && r.userId == uid) := by
        simp [hasRead]
      rw [hr, List.any_cons, Bool.or_assoc]

theorem isParticipant_setReads (s : State) (x : List MessageRead) (cid uid : Nat) :
    isParticipant { s with messageReads := x } cid uid = isParticipant s cid uid := rfl

theorem visibleMessages_setReads (s : State) (x : List MessageRead) (uid cid : Nat) :
    visibleMessages { s with messageReads := x } uid cid = visibleMessages s uid cid := rfl

/-! Concrete fixtures used by counterexamples and witnesses. -/

/-- Soft-deleted TEXT message whose content is still present in the row. -/
def exMsgDel : Message :=
  { id := 10, conversationId := 1, senderId := 2, content := some ("hi"), type := .TEXT,
    fileUrl := none, fileName := none, createdAt := 5, deletedAt := some 7, groupId := none }

/-- Two-user DM whose only message is the soft-deleted `exMsgDel`. -/
def exStateDel : State :=
  { conversations := [{ id := 1, isGroup := false, createdAt := 0, createdById := 1 }],
    participants := [⟨1, 1⟩, ⟨1, 2⟩],
    messages := [exMsgDel],
    conversationHides := [], messageHides := [], messageReads := [] }

/-- Thirty live messages with ascending creation timestamps 1..30. -/
def exMsgs30 : List Message := (List.range 30).map (fun i =>
  { id := i + 1, conversationId := 1, senderId := 2, content := some ("x"), type := .TEXT,
    fileUrl := none, fileName := none, createdAt := i + 1, deletedAt := none, groupId := none })

/-- Two-user DM holding exactly `pageLimit` visible messages. -/
def exState30 : State :=
  { conversations := [{ id := 1, isGroup := false, createdAt := 0, createdById := 1 }],
    participants := [⟨1, 1⟩, ⟨1, 2⟩],
    messages := exMsgs30,
    conversationHides := [], messageHides := [], messageReads := [] }

/-- Image attachment created before the caller's visibility window. -/
def exMsgAtt : Message :=
  { id := 20, conversationId := 1, senderId := 2, content := none, type := .IMAGE,
    fileUrl := some ("u"), fileName := some ("f"), createdAt := 50, deletedAt := none,
    groupId := none }

/-- State where user 1 is windowed to `visibleFrom = 100`, after the only
attachment (created at 50). -/
def exStateAtt : State :=
  { conversations := [{ id := 1, isGroup := false, createdAt := 0, createdById := 1 }],
    participants := [⟨1, 1⟩, ⟨1, 2⟩],
    messages := [exMsgAtt],
    conversationHides := [⟨1, 1, 60, some 100⟩], messageHides := [], messageReads := [] }

/-- Conversation with id 1; same creation timestamp as `exConvB`. -/
def exConvA : Conversation := { id := 1, isGroup := false, createdAt := 10, createdById := 1 }

/-- Conversation with id 2; same creation timestamp as `exConvA`. -/
def exConvB : Conversation := { id := 2, isGroup := false, createdAt := 10, createdById := 1 }

/-- State whose storage order lists `exConvA` before `exConvB`. -/
def exStateOrd1 : State :=
  { conversations := [exConvA, exConvB], participants := [⟨1, 1⟩, ⟨2, 1⟩], messages := [],
    conversationHides := [], messageHides := [], messageReads := [] }

/-- Same rows as `exStateOrd1` with the two conversations arriving in the
opposite storage order. -/
def exStateOrd2 : State := { exStateOrd1 with conversations := [exConvB, exConvA] }

/-- Fixture state for the send-window witness: user 1 fully hidden
(`visibleFrom` null), user 2 already windowed at 2. -/
def exStateHides : State :=
  { conversations := [{ id := 1, isGroup := false, createdAt := 0, createdById := 1 }],
    participants := [⟨1, 1⟩, ⟨1, 2⟩],
    messages := [],
    conversationHides := [⟨1, 1, 3, none⟩, ⟨1, 2, 4, some 2⟩],
    messageHides := [], messageReads := [] }

/-- The TEXT message the witness send creates. -/
def exMsgYo : Message :=
  { id := 50, conversationId := 1, senderId := 1, content := some ("yo"), type := .TEXT,
    fileUrl := none, fileName := none, createdAt := 100, deletedAt := none, groupId := none }

/-! Claim theorems. -/

/-- Claim C1, counterexample: in `exStateDel`, participant 1 fetches the page
and receives the soft-deleted message as a row with its content `some "hi"`
still served — the listing performs no redaction, contradicting the claim that
the content of a soft-deleted message is not served to any reader. -/
theorem c1_counterexample :
    exMsgDel.deletedAt ≠ none ∧
    (listMessagesPage exStateDel 1 1 none 100).2 =
      .ok { pageMessages := [exMsgDel], nextCursor := none } ∧
    exMsgDel.content = some ("hi") := by
  refine ⟨by decide, ?_, rfl⟩
  decide

/-- Claim C3, counterexample: `exState30` holds exactly `pageLimit = 30`
visible messages; the first fetch returns all thirty yet signals a non-null
next cursor, and the fetch at that cursor returns an empty page — so a next
page is signalled although no further page of visible messages exists. -/
theorem c3_counterexample :
    (listMessagesPage exState30 1 1 none 100).2 =
      .ok { pageMessages := exMsgs30, nextCursor := some 1 } ∧
    (listMessagesPage ((listMessagesPage exState30 1 1 none 100).1) 1 1 (some 1) 200).2 =
      .ok { pageMessages := [], nextCursor := none } := by
  constructor
  · decide
  · decide

/-- Claim C6, counterexample: in `exStateAtt` the caller is windowed to
`visibleFrom = 100`, so the message-history read returns nothing, yet the
attachments listing still returns the attachment created at 50 — the
attachments read does not apply the history read's visibility predicate. -/
theorem c6_counterexample :
    listAttachments exStateAtt 1 1 = .ok [exMsgAtt] ∧
    visibleMessages exStateAtt 1 1 = [] ∧
    (listMessagesPage exStateAtt 1 1 none 100).2 =
      .ok { pageMessages := [], nextCursor := none } := by
  refine ⟨by decide, by decide, by decide⟩

/-- Claim C7, counterexample: `exStateOrd1` and `exStateOrd2` hold the same
rows (the conversation table as a multiset and every other table literally),
yet the conversation list orders the two equal-keyed conversations differently
depending on the storage arrival order — there is no id tie-break. -/
theorem c7_counterexample :
    Multiset.ofList exStateOrd2.conversations = Multiset.ofList exStateOrd1.conversations ∧
    exStateOrd2.participants = exStateOrd1.participants ∧
    exStateOrd2.messages = exStateOrd1.messages ∧
    exStateOrd2.conversationHides = exStateOrd1.conversationHides ∧
    exStateOrd2.messageReads = exStateOrd1.messageReads ∧
    (listConversations exStateOrd1 1).map (fun e => e.conv.id) = [1, 2] ∧
    (listConversations exStateOrd2 1).map (fun e => e.conv.id) = [2, 1] := by
  refine ⟨by decide, rfl, rfl, rfl, rfl, by decide, by decide⟩

/-- Claim C10: a send whose content is a non-empty string of whitespace and
which carries no files passes the required-field validation, creates no
message row, and fails with the opaque internal error, leaving the state
(ledger and visibility store) unchanged. -/
theorem c10_whitespace_only_send (s : State) (uid cid : Nat) (c : String)
    (gid fid now : Nat)
    (hpart : isParticipant s cid uid = true)
    (hne : c ≠ "")
    (htrim : jsTrim c = "") :
    sendMessage s uid cid (some c) [] gid fid now = (s, .error .internal) := by
  have htruthy : truthy (some c) = true := by
    simp [truthy, hne]
  have hmsgs : createdMessages cid uid (some c) [] gid fid now = [] := by
    simp [createdMessages, htrim]
  simp [sendMessage, hpart, htruthy, hmsgs]

/-- Claim C10, witness: a single-space content in the two-user DM `exStateDel`
fails with the internal error and changes nothing. -/
theorem c10_whitespace_only_send_witness :
    sendMessage exStateDel 1 1 (some (" ")) [] 99 50 100 =
      (exStateDel, .error .internal) :=
  c10_whitespace_only_send exStateDel 1 1 (" ") 99 50 100 (by decide) (by decide) (by decide)

/-- Claim C4: reading the same message page twice in sequence by the same user
is idempotent: the second read returns the same page and cursor, inserts no new
MessageRead row (the state after the second read equals the state after the
first), and raises no error the first read did not raise. -/
theorem c4_read_page_idempotent (s : State) (uid cid : Nat) (cursor : Option Nat)
    (now now2 : Nat) :
    listMessagesPage ((listMessagesPage s uid cid cursor now).1) uid cid cursor now2 =
      ((listMessagesPage s uid cid cursor now).1, (listMessagesPage s uid cid cursor now).2) := by
  by_cases hp : isParticipant s cid uid = true
  · simp only [listMessagesPage, hp, if_pos, isParticipant_setReads, visibleMessages_setReads,
      if_true]
    have hnil : (List.filter
        (fun m => m.senderId != uid &&
          !hasRead (insertReads s.messageReads
            (List.map (fun m => { messageId := m.id, userId := uid, readAt := now })
              (List.filter (fun m => m.senderId != uid && !hasRead s.messageReads m.id uid)
                (pageSlice (sortDescBy (fun m => m.createdAt) (visibleMessages s uid cid))
                  cursor)))) m.id uid)
        (pageSlice (sortDescBy (fun m => m.createdAt) (visibleMessages s uid cid)) cursor)) =
        [] := by
      rw [List.filter_eq_nil_iff]
      intro m hm
      simp only [Bool.and_eq_true, bne_iff_ne, ne_eq, Bool.not_eq_true', not_and]
      intro hsender
      rw [hasRead_insertReads]
      by_cases hr : hasRead s.messageReads m.id uid = true
      · simp [hr]
      · have hq : (fun m => m.senderId != uid && !hasRead s.messageReads m.id uid) m = true := by
          simp [hsender, Bool.eq_false_iff.mpr hr]
        have hmem : m ∈ List.filter
            (fun m => m.senderId != uid && !hasRead s.messageReads m.id uid)
            (pageSlice (sortDescBy (fun m => m.createdAt) (visibleMessages s uid cid)) cursor) :=
          List.mem_filter.mpr ⟨hm, hq⟩
        have hany : (List.map (fun m => ({ messageId := m.id, userId := uid, readAt := now } :
            MessageRead))
            (List.filter (fun m => m.senderId != uid && !hasRead s.messageReads m.id uid)
              (pageSlice (sortDescBy (fun m => m.createdAt) (visibleMessages s uid cid))
                cursor))).any
            (fun r => r.messageId == m.id && r.userId == uid) = true := by
          rw [List.any_eq_true]
          exact ⟨{ messageId := m.id, userId := uid, readAt := now },
            List.mem_map_of_mem _ hmem, by simp⟩
        simp [hany]
    rw [hnil]
    simp [insertReads]
  · simp [listMessagesPage, hp]

/-- Claim C1, amended: the history read includes soft-deleted messages under
exactly the same conditions as live ones — membership in the visible set is
conversation match, no per-user hide, and the window check, with the
soft-delete timestamp never consulted — and every row of a returned page is
served verbatim from the ledger, content and file reference included. -/
theorem c1_amended_tombstone_rows_content_served (s : State) (uid cid : Nat) (m : Message)
    (cursor : Option Nat) (now : Nat) (r : PageResult)
    (hok : (listMessagesPage s uid cid cursor now).2 = .ok r) :
    (m ∈ visibleMessages s uid cid ↔
      m ∈ s.messages ∧ m.conversationId = cid ∧ hiddenByUser s uid m.id = false ∧
        windowOk s cid uid m = true) ∧
    r.pageMessages ⊆ s.messages := by
  constructor
  · simp only [visibleMessages, List.mem_filter, Bool.and_eq_true, beq_iff_eq,
      Bool.not_eq_true']
    tauto
  · by_cases hp : isParticipant s cid uid = true
    · simp only [listMessagesPage, hp, if_true] at hok
      have hr := (Except.ok.injEq _ _).mp hok
      subst hr
      intro x hx
      simp only [List.mem_reverse] at hx
      have h1 := pageSlice_subset _ _ hx
      have h2 := (mem_sortDescBy _ _ _).mp h1
      exact visibleMessages_subset s uid cid h2
    · simp [listMessagesPage, hp] at hok

/-- Claim C1, amended, witness: instantiated at the two-user DM whose only
message is soft-deleted. -/
theorem c1_amended_tombstone_rows_content_served_witness :
    (exMsgDel ∈ visibleMessages exStateDel 1 1 ↔
      exMsgDel ∈ exStateDel.messages ∧ exMsgDel.conversationId = 1 ∧
        hiddenByUser exStateDel 1 exMsgDel.id = false ∧
        windowOk exStateDel 1 1 exMsgDel = true) ∧
    ({ pageMessages := [exMsgDel], nextCursor := none } : PageResult).pageMessages ⊆
      exStateDel.messages :=
  c1_amended_tombstone_rows_content_served exStateDel 1 1 exMsgDel none 100
    { pageMessages := [exMsgDel], nextCursor := none } (by decide)

/-- Claim C3, amended: the history read returns at most `pageLimit` items and
signals a next page (non-null cursor) exactly when the returned page is full
(`pageLimit` items) — not when a further page actually exists, so a full final
page still signals a next (empty) page. -/
theorem c3_amended_cursor_iff_full_page (s : State) (uid cid : Nat) (cursor : Option Nat)
    (now : Nat) (r : PageResult)
    (hok : (listMessagesPage s uid cid cursor now).2 = .ok r) :
    r.pageMessages.length ≤ pageLimit ∧
    (r.nextCursor ≠ none ↔ r.pageMessages.length = pageLimit) := by
  by_cases hp : isParticipant s cid uid = true
  · simp only [listMessagesPage, hp, if_true] at hok
    have hr := (Except.ok.injEq _ _).mp hok
    subst hr
    constructor
    · simp only [List.length_reverse]
      cases cursor with
      | none => exact List.length_take_le _ _
      | some c => exact List.length_take_le _ _
    · set msgs := pageSlice (sortDescBy (fun m => m.createdAt) (visibleMessages s uid cid))
        cursor with hmsgs
      by_cases hlen : msgs.length = pageLimit
      · have hne : msgs.reverse ≠ [] := by
          intro hcon
          have hnil : msgs = [] := by simpa using hcon
          rw [hnil] at hlen
          simp [pageLimit] at hlen
        obtain ⟨a, t, hat⟩ := List.exists_cons_of_ne_nil hne
        simp [List.length_reverse, hlen, hat]
      · have hcond : (msgs.reverse.length == pageLimit) = false := by
          simp [List.length_reverse, hlen]
        simp [hcond, List.length_reverse, hlen]
  · simp [listMessagesPage, hp] at hok

/-- Claim C3, amended, witness: instantiated at the single-message DM, whose
one-item page signals no next cursor. -/
theorem c3_amended_cursor_iff_full_page_witness :
    ({ pageMessages := [exMsgDel], nextCursor := none } : PageResult).pageMessages.length ≤
      pageLimit ∧
    (({ pageMessages := [exMsgDel], nextCursor := none } : PageResult).nextCursor ≠ none ↔
      ({ pageMessages := [exMsgDel], nextCursor := none } :
        PageResult).pageMessages.length = pageLimit) :=
  c3_amended_cursor_iff_full_page exStateDel 1 1 none 100
    { pageMessages := [exMsgDel], nextCursor := none } (by decide)

theorem updateHides_comp (hides : List ConversationHide) (cid uid t : Nat) :
    updateHidesForOthers (updateHidesForSender hides cid uid t) cid uid t =
      hides.map (fun h =>
        if h.conversationId = cid ∧ h.visibleFrom = none
        then { h with visibleFrom := some t } else h) := by
  unfold updateHidesForOthers updateHidesForSender
  rw [List.map_map]
  apply List.map_congr_left
  intro h _
  by_cases h1 : h.conversationId = cid
  · by_cases h2 : h.visibleFrom = none
    · by_cases h3 : h.userId = uid
      · simp [h1, h2, h3]
      · simp [h1, h2, h3]
    · simp [h1, h2]
  · simp [h1]

theorem createdMessages_eq_nil (cid uid gid fid now : Nat) (content : Option String)
    (hc : truthy content = false) :
    createdMessages cid uid content [] gid fid now = [] := by
  cases content with
  | none => simp [createdMessages]
  | some c =>
    have hcc : c = "" := by simpa [truthy] using hc
    subst hcc
    have htr : jsTrim ("") = "" := by decide
    simp [createdMessages, htr]

/-- Claim C2: a send that creates at least one message sets, for every
ConversationHide record of the conversation whose `visibleFrom` is null
(sender or any other participant alike), `visibleFrom` to the first created
message's creation timestamp; records with a non-null `visibleFrom` are
untouched, and no hide record is created or removed (the mapped list below
changes nothing else). -/
theorem c2_send_sets_null_visible_from (s : State) (uid cid : Nat) (content : Option String)
    (files : List FileInput) (gid fid now : Nat) (m0 : Message) (rest : List Message)
    (hpart : isParticipant s cid uid = true)
    (hmsgs : createdMessages cid uid content files gid fid now = m0 :: rest) :
    sendMessage s uid cid content files gid fid now =
      ({ s with messages := s.messages ++ (m0 :: rest),
                conversationHides := s.conversationHides.map (fun h =>
                  if h.conversationId = cid ∧ h.visibleFrom = none
                  then { h with visibleFrom := some m0.createdAt } else h) },
        .ok (m0 :: rest)) := by
  have hguard : ¬ (truthy content = false ∧ files = []) := by
    rintro ⟨hc, hf⟩
    subst hf
    rw [createdMessages_eq_nil cid uid gid fid now content hc] at hmsgs
    exact List.noConfusion hmsgs
  simp only [sendMessage, hpart, not_true, if_neg, if_false, hguard, hmsgs]
  simp [updateHides_comp]

/-- Claim C2, witness: a text send into `exStateHides` windows user 1's null
record to the new message's timestamp 100 and leaves user 2's window at 2. -/
theorem c2_send_sets_null_visible_from_witness :
    sendMessage exStateHides 1 1 (some ("yo")) [] 99 50 100 =
      ({ exStateHides with
          messages := exStateHides.messages ++ (exMsgYo :: []),
          conversationHides := exStateHides.conversationHides.map (fun h =>
            if h.conversationId = 1 ∧ h.visibleFrom = none
            then { h with visibleFrom := some exMsgYo.createdAt } else h) },
        .ok (exMsgYo :: [])) :=
  c2_send_sets_null_visible_from exStateHides 1 1 (some ("yo")) [] 99 50 100 exMsgYo []
    (by decide) (by decide)

theorem visibleMessages_hide_other (s : State) (uidA uidB mid cid : Nat)
    (hne : uidA ≠ uidB) :
    visibleMessages { s with messageHides := s.messageHides ++ [⟨mid, uidA⟩] } uidB cid =
      visibleMessages s uidB cid := by
  unfold visibleMessages
  apply List.filter_congr
  intro m _
  have hhid : hiddenByUser { s with messageHides := s.messageHides ++ [⟨mid, uidA⟩] } uidB m.id
      = hiddenByUser s uidB m.id := by
    simp only [hiddenByUser, List.any_append]
    have hone : (([⟨mid, uidA⟩] : List MessageHide).any
        (fun h => h.messageId == m.id && h.userId == uidB)) = false := by
      simp [hne]
    simp [hone]
  rw [hhid]
  rfl

theorem hideMessage_state (s : State) (uidA mid : Nat) :
    (hideMessage s uidA mid).1 = s ∨
    (hideMessage s uidA mid).1 = { s with messageHides := s.messageHides ++ [⟨mid, uidA⟩] } := by
  unfold hideMessage
  cases hfind : s.messages.find? (fun m => m.id == mid) with
  | none => left; rfl
  | some m =>
    by_cases hs : (m.senderId == uidA) = true
    · left; simp [hs]
    · by_cases hex : s.messageHides.any (fun h => h.messageId == mid && h.userId == uidA) = true
      · left; simp [hs, hex]
      · right; simp [hs, hex]

/-- Claim C9: one user hiding a message (POST /api/messages/:messageId/hide)
changes nothing in what any other participant's message listing returns — the
result (rows, content, cursor) and the read-receipt side effect for the other
user are identical before and after the hide. -/
theorem c9_hide_by_one_user_invisible_to_other (s : State) (uidA uidB mid cid : Nat) (cursor : Option Nat) (now : Nat)
    (hne : uidA ≠ uidB) :
    (listMessagesPage ((hideMessage s uidA mid).1) uidB cid cursor now).2 =
      (listMessagesPage s uidB cid cursor now).2 ∧
    (listMessagesPage ((hideMessage s uidA mid).1) uidB cid cursor now).1.messageReads =
      (listMessagesPage s uidB cid cursor now).1.messageReads := by
  rcases hideMessage_state s uidA mid with h2 | h2
  · rw [h2]
    exact ⟨rfl, rfl⟩
  · rw [h2]
    have hvis := visibleMessages_hide_other s uidA uidB mid cid hne
    by_cases hp : isParticipant s cid uidB = true
    · have hp2 : isParticipant { s with messageHides := s.messageHides ++ [⟨mid, uidA⟩] }
          cid uidB = true := hp
      simp only [listMessagesPage, hp, hp2, if_true, hvis]
      exact ⟨by trivial, by trivial⟩
    · have hp2 : ¬ isParticipant { s with messageHides := s.messageHides ++ [⟨mid, uidA⟩] }
          cid uidB = true := hp
      simp only [listMessagesPage, if_neg hp, if_neg hp2]
      exact ⟨by trivial, by trivial⟩

/-- Claim C9, witness: user 2 hiding message 10 leaves user 1's listing of the
single-message DM unchanged. -/
theorem c9_hide_by_one_user_invisible_to_other_witness :
    (listMessagesPage ((hideMessage exStateDel 2 10).1) 1 1 none 100).2 =
      (listMessagesPage exStateDel 1 1 none 100).2 ∧
    (listMessagesPage ((hideMessage exStateDel 2 10).1) 1 1 none 100).1.messageReads =
      (listMessagesPage exStateDel 1 1 none 100).1.messageReads :=
  c9_hide_by_one_user_invisible_to_other exStateDel 2 1 10 1 none 100 (by decide)

theorem find?_map_of_pred {α : Type} (f : α → α) (q : α → Bool) (l : List α)
    (hf : ∀ h, q (f h) = q h) :
    (l.map f).find? q = (l.find? q).map f := by
  induction l with
  | nil => rfl
  | cons y ys ih =>
    by_cases hq : q y = true
    · rw [List.map_cons, List.find?_cons_of_pos _ (by rw [hf]; exact hq),
        List.find?_cons_of_pos _ hq]
      rfl
    · rw [List.map_cons, List.find?_cons_of_neg _ (by rw [hf]; simpa using hq),
        List.find?_cons_of_neg _ (by simpa using hq), ih]

theorem upsert_mem_hidden (hides : List ConversationHide) (cid uid now : Nat) :
    ∃ h ∈ upsertConversationHide hides cid uid now,
      h.conversationId = cid ∧ h.userId = uid ∧ h.visibleFrom = none ∧ h.hiddenAt = now := by
  unfold upsertConversationHide
  by_cases hany : hides.any (fun h => h.conversationId == cid && h.userId == uid) = true
  · rw [if_pos hany]
    obtain ⟨h0, hmem, hq⟩ := List.any_eq_true.mp hany
    have hq2 : (h0.conversationId == cid && h0.userId == uid) = true := hq
    rw [Bool.and_eq_true] at hq2
    refine ⟨{ h0 with hiddenAt := now, visibleFrom := none }, ?_, ?_, ?_, rfl, rfl⟩
    · have hupd : (if (h0.conversationId == cid && h0.userId == uid) = true
          then { h0 with hiddenAt := now, visibleFrom := none } else h0) =
          { h0 with hiddenAt := now, visibleFrom := none } := by rw [if_pos hq]
      exact hupd ▸ List.mem_map_of_mem _ hmem
    · simpa using hq2.1
    · simpa using hq2.2
  · rw [if_neg hany]
    exact ⟨⟨cid, uid, now, none⟩, List.mem_append_right _ (List.mem_singleton.mpr rfl),
      rfl, rfl, rfl, rfl⟩

theorem find?_upsert_map (hides : List ConversationHide) (cid uid now : Nat) :
    (hides.map (fun h => if (h.conversationId == cid && h.userId == uid) = true
        then { h with hiddenAt := now, visibleFrom := none } else h)).find?
      (fun h => h.conversationId == cid && h.userId == uid) =
    (hides.find? (fun h => h.conversationId == cid && h.userId == uid)).map
      (fun h => if (h.conversationId == cid && h.userId == uid) = true
        then { h with hiddenAt := now, visibleFrom := none } else h) := by
  apply find?_map_of_pred
  intro h
  by_cases hq : (h.conversationId == cid && h.userId == uid) = true
  · rw [if_pos hq]
  · rw [if_neg hq]

theorem upsert_find (hides : List ConversationHide) (cid uid now : Nat) :
    ∃ h, (upsertConversationHide hides cid uid now).find?
        (fun h => h.conversationId == cid && h.userId == uid) = some h ∧
      h.visibleFrom = none ∧ h.hiddenAt = now := by
  unfold upsertConversationHide
  by_cases hany : hides.any (fun h => h.conversationId == cid && h.userId == uid) = true
  · rw [if_pos hany]
    have hsome : (hides.find? (fun h => h.conversationId == cid && h.userId == uid)).isSome := by
      rw [List.find?_isSome]
      obtain ⟨h0, hmem, hq⟩ := List.any_eq_true.mp hany
      exact ⟨h0, hmem, hq⟩
    obtain ⟨h0, hfind⟩ := Option.isSome_iff_exists.mp hsome
    have hq0 := List.find?_some hfind
    rw [find?_upsert_map, hfind]
    refine ⟨{ h0 with hiddenAt := now, visibleFrom := none }, ?_, rfl, rfl⟩
    have hmapsome : Option.map (fun h => if (h.conversationId == cid && h.userId == uid) = true
        then { h with hiddenAt := now, visibleFrom := none } else h) (some h0) =
        some (if (h0.conversationId == cid && h0.userId == uid) = true
          then { h0 with hiddenAt := now, visibleFrom := none } else h0) := rfl
    rw [hmapsome, if_pos hq0]
  · rw [if_neg hany]
    have hnone : hides.find? (fun h => h.conversationId == cid && h.userId == uid) = none := by
      rw [List.find?_eq_none]
      intro x hx hpx
      exact hany (List.any_eq_true.mpr ⟨x, hx, hpx⟩)
    rw [List.find?_append, hnone]
    refine ⟨⟨cid, uid, now, none⟩, ?_, rfl, rfl⟩
    simp

/-- Claim C5: hiding a conversation (DELETE /api/conversations/:conversationId)
succeeds for any participant from any prior hide state and leaves the caller's
ConversationHide record with `visibleFrom` null and `hiddenAt` refreshed to the
call time, and the conversation no longer appears in the caller's conversation
list. -/
theorem c5_rehide_fully_hidden (s : State) (uid cid now : Nat)
    (hpart : isParticipant s cid uid = true) :
    (hideConversation s uid cid now).2 = .ok () ∧
    (∃ h, findConversationHide (hideConversation s uid cid now).1 cid uid = some h ∧
      h.visibleFrom = none ∧ h.hiddenAt = now) ∧
    ∀ e ∈ listConversations (hideConversation s uid cid now).1 uid, e.conv.id ≠ cid := by
  have hstate : hideConversation s uid cid now =
      ({ s with conversationHides := upsertConversationHide s.conversationHides cid uid now },
        .ok ()) := by
    simp [hideConversation, hpart]
  rw [hstate]
  refine ⟨rfl, ?_, ?_⟩
  · exact upsert_find s.conversationHides cid uid now
  · intro e he
    unfold listConversations at he
    rw [mem_sortDescBy] at he
    obtain ⟨c, hc, hec⟩ := List.mem_map.mp he
    rw [mem_sortDescBy, List.mem_filter] at hc
    obtain ⟨hcmem, hcpred⟩ := hc
    rw [Bool.and_eq_true] at hcpred
    have hnotcontains := hcpred.2
    obtain ⟨h0, hmem0, hcid0, huid0, hvf0, _⟩ :=
      upsert_mem_hidden s.conversationHides cid uid now
    have hhidden : cid ∈ (((upsertConversationHide s.conversationHides cid uid now).filter
        (fun h => h.userId == uid)).filter (fun h => h.visibleFrom == none)).map
        (fun h => h.conversationId) := by
      refine List.mem_map.mpr ⟨h0, ?_, hcid0⟩
      refine List.mem_filter.mpr ⟨List.mem_filter.mpr ⟨hmem0, ?_⟩, ?_⟩
      · simp [huid0]
      · simp [hvf0]
    have hconv : e.conv = c := by rw [← hec]
    intro heq
    rw [hconv] at heq
    rw [heq] at hnotcontains
    rw [Bool.not_eq_true'] at hnotcontains
    have hcont : ((((upsertConversationHide s.conversationHides cid uid now).filter
        (fun h => h.userId == uid)).filter (fun h => h.visibleFrom == none)).map
        (fun h => h.conversationId)).contains cid = true := List.elem_iff.mpr hhidden
    have hfalse : (true : Bool) = false := hcont.symm.trans hnotcontains
    exact Bool.noConfusion hfalse

/-- Claim C5, witness: user 1 re-hiding the DM of `exStateDel` at time 42. -/
theorem c5_rehide_fully_hidden_witness :
    (hideConversation exStateDel 1 1 42).2 = .ok () ∧
    (∃ h, findConversationHide (hideConversation exStateDel 1 1 42).1 1 1 = some h ∧
      h.visibleFrom = none ∧ h.hiddenAt = 42) ∧
    ∀ e ∈ listConversations (hideConversation exStateDel 1 1 42).1 1, e.conv.id ≠ 1 :=
  c5_rehide_fully_hidden exStateDel 1 1 42 (by decide)

theorem msgType_beq_iff (t u : MsgType) : (t == u) = true ↔ t = u := by
  cases t <;> cases u <;> decide

/-- Claim C6, amended: the attachments listing filters only by conversation,
IMAGE/FILE type, non-deletion, and presence of a file reference — it does not
consult the caller's MessageHide rows or `visibleFrom` window, so it can
return attachments that the message-history read excludes for this caller. -/
theorem c6_attachments_ignore_visibility_predicate (s : State) (uid cid : Nat) (m : Message) (l : List Message)
    (hok : listAttachments s uid cid = .ok l) :
    m ∈ l ↔ m ∈ s.messages ∧ m.conversationId = cid ∧
      (m.type = MsgType.IMAGE ∨ m.type = MsgType.FILE) ∧ m.deletedAt = none ∧
      m.fileUrl ≠ none := by
  by_cases hp : isParticipant s cid uid = true
  · rw [listAttachments, if_neg (by simp [hp])] at hok
    have hl := (Except.ok.injEq _ _).mp hok
    subst hl
    rw [mem_sortDescBy, List.mem_filter]
    simp only [Bool.and_eq_true, Bool.or_eq_true, beq_iff_eq, Bool.not_eq_true',
      msgType_beq_iff, beq_eq_false_iff_ne, ne_eq]
    tauto
  · rw [listAttachments, if_pos (by simp [hp])] at hok
    exact Except.noConfusion hok

/-- Claim C6, amended, witness: the windowed caller of `exStateAtt` gets the
pre-window attachment from the attachments listing. -/
theorem c6_attachments_ignore_visibility_predicate_witness :
    exMsgAtt ∈ [exMsgAtt] ↔ exMsgAtt ∈ exStateAtt.messages ∧
      exMsgAtt.conversationId = 1 ∧
      (exMsgAtt.type = MsgType.IMAGE ∨ exMsgAtt.type = MsgType.FILE) ∧
      exMsgAtt.deletedAt = none ∧ exMsgAtt.fileUrl ≠ none :=
  c6_attachments_ignore_visibility_predicate exStateAtt 1 1 exMsgAtt [exMsgAtt] (by decide)

/-- Claim C7, amended: the conversation list is a pure function of the state
(deterministic for a fixed storage order) and is sorted descending by the
preview-else-creation timestamp; ties between equal sort keys are resolved by
storage arrival order (stable sort), not by a conversation-id tie-break, so
equal-keyed conversations may appear in either order depending on how rows
arrive from storage. -/
theorem c7_amended_list_sorted_desc (s : State) (uid : Nat) :
    (listConversations s uid).Pairwise (fun a b => convSortKey b ≤ convSortKey a) := by
  unfold listConversations
  exact pairwise_sortDescBy _ _

theorem dropWhile_middle (p : Message → Bool) (a : List Message) (x : Message)
    (b : List Message) (ha : ∀ y ∈ a, p y = true) (hx : p x = false) :
    List.dropWhile p (a ++ x :: b) = x :: b := by
  induction a with
  | nil =>
    rw [List.nil_append, List.dropWhile_cons, hx]
    simp
  | cons y ys ih =>
    have hy := ha y (List.mem_cons_self y ys)
    rw [List.cons_append, List.dropWhile_cons, hy]
    simp only [if_true]
    exact ih (fun z hz => ha z (List.mem_cons_of_mem y hz))

theorem pageSlice_after (l : List Message) (j : Nat)
    (hnd : (l.map (fun m => m.id)).Nodup)
    (hj : j + pageLimit ≤ l.length) :
    pageSlice l ((((l.drop j).take pageLimit).reverse.head?).map (fun m => m.id)) =
      (l.drop (j + pageLimit)).take pageLimit := by
  have hpl : pageLimit = 30 := rfl
  have hlen30 : ((l.drop j).take pageLimit).length = pageLimit := by
    rw [List.length_take, List.length_drop]
    rw [hpl] at hj ⊢
    omega
  have hne : (l.drop j).take pageLimit ≠ [] := by
    intro hcon
    rw [hcon] at hlen30
    rw [hpl] at hlen30
    exact absurd hlen30.symm (by decide)
  have hA : l.take (j + pageLimit) = l.take j ++ (l.drop j).take pageLimit :=
    List.take_add l j pageLimit
  have hAne : l.take (j + pageLimit) ≠ [] := by
    rw [hA]
    intro hcon
    exact hne (List.append_eq_nil.mp hcon).2
  rw [List.head?_reverse]
  have hgl : ((l.drop j).take pageLimit).getLast? = (l.take (j + pageLimit)).getLast? := by
    rw [hA, List.getLast?_append, List.getLast?_eq_getLast _ hne]
    rfl
  rw [hgl, List.getLast?_eq_getLast _ hAne]
  set x := (l.take (j + pageLimit)).getLast hAne with hxdef
  have hdecomp : l = (l.take (j + pageLimit)).dropLast ++ x :: l.drop (j + pageLimit) := by
    conv_lhs => rw [← List.take_append_drop (j + pageLimit) l,
      ← List.dropLast_append_getLast hAne]
    rw [List.append_assoc, List.singleton_append]
  have hnd2 : (((l.take (j + pageLimit)).dropLast.map (fun m => m.id)) ++
      ((x :: l.drop (j + pageLimit)).map (fun m => m.id))).Nodup := by
    rw [← List.map_append, ← hdecomp]
    exact hnd
  have hdisj := (List.nodup_append.mp hnd2).2.2
  have hya : ∀ y ∈ (l.take (j + pageLimit)).dropLast, ((fun m => m.id != x.id) y) = true := by
    intro y hy
    show (y.id != x.id) = true
    rw [bne_iff_ne]
    intro heq
    refine hdisj (List.mem_map_of_mem _ hy) ?_
    rw [List.map_cons]
    exact heq ▸ List.mem_cons_self _ _
  have hdw : l.dropWhile (fun m => m.id != x.id) = x :: l.drop (j + pageLimit) := by
    conv_lhs => rw [hdecomp]
    exact dropWhile_middle _ _ _ _ hya (bne_self_eq_false x.id)
  show ((l.dropWhile (fun m => m.id != x.id)).drop 1).take pageLimit = _
  rw [hdw]
  rfl

/-- Harness chaining the history read: performs one GET per entry of `nows`,
feeding each returned cursor into the next call, and collects the pages in
order together with the cursor of the last response. -/
def chainedPages (uid cid : Nat) : State → Option Nat → List Nat →
    List (List Message) × Option Nat
  | _, cursor, [] => ([], cursor)
  | s, cursor, n :: ns =>
    match listMessagesPage s uid cid cursor n with
    | (s2, Except.ok r) =>
      let rest := chainedPages uid cid s2 r.nextCursor ns
      (r.pageMessages :: rest.1, rest.2)
    | (_, Except.error _) => ([], cursor)

/-- Response the history read builds from the ordered visible list `l` and the
request cursor (the page reversed to ascending order, and the cursor of the
first element of the reversed page when the page is full). -/
def mkPage (l : List Message) (cursor : Option Nat) : PageResult where
  pageMessages := (pageSlice l cursor).reverse
  nextCursor :=
    if (pageSlice l cursor).reverse.length == pageLimit
    then (pageSlice l cursor).reverse.head?.map (fun m => m.id)
    else none

theorem listMessagesPage_ok (s : State) (uid cid : Nat) (cursor : Option Nat) (n : Nat)
    (l : List Message)
    (hpart : isParticipant s cid uid = true)
    (hl : sortDescBy (fun m => m.createdAt) (visibleMessages s uid cid) = l) :
    ∃ s2, listMessagesPage s uid cid cursor n = (s2, Except.ok (mkPage l cursor)) ∧
      isParticipant s2 cid uid = true ∧
      sortDescBy (fun m => m.createdAt) (visibleMessages s2 uid cid) = l := by
  refine
    ⟨{ s with
        messageReads := insertReads s.messageReads
          (((pageSlice l cursor).filter
            (fun m => m.senderId != uid && !hasRead s.messageReads m.id uid)).map
            (fun m => { messageId := m.id, userId := uid, readAt := n })) },
      ?_, hpart, ?_⟩
  · simp only [listMessagesPage, hpart, if_true, hl, mkPage]
  · rw [visibleMessages_setReads]
    exact hl

theorem mkPage_nextCursor_full (l : List Message) (cursor : Option Nat) (j : Nat)
    (h : pageSlice l cursor = (l.drop j).take pageLimit)
    (hj : j + pageLimit ≤ l.length) :
    (mkPage l cursor).nextCursor =
      (((l.drop j).take pageLimit).reverse.head?).map (fun m => m.id) := by
  have hpl : pageLimit = 30 := rfl
  have hlen30 : ((l.drop j).take pageLimit).reverse.length = pageLimit := by
    rw [List.length_reverse, List.length_take, List.length_drop]
    rw [hpl] at hj ⊢
    omega
  simp only [mkPage, h, hlen30]
  simp

/-- Claim C8: for a conversation whose visible history, ordered newest first,
is a 100-message list with pairwise-distinct ids, four cursor-chained calls of
the history read succeed, return exactly the four ascending chunks of that
list (30, 30, 30 and 10 messages), end with a null cursor, and their
concatenation (oldest page first) is exactly the full ascending history — the
same set as an unpaginated fetch, with no duplicate and no gap. -/
theorem c8_chained_pagination_partitions (s : State) (uid cid : Nat) (n1 n2 n3 n4 : Nat) (l : List Message)
    (hpart : isParticipant s cid uid = true)
    (hl : sortDescBy (fun m => m.createdAt) (visibleMessages s uid cid) = l)
    (hlen : l.length = 100)
    (hids : (l.map (fun m => m.id)).Nodup) :
    chainedPages uid cid s none [n1, n2, n3, n4] =
      ([(l.take 30).reverse, ((l.drop 30).take 30).reverse, ((l.drop 60).take 30).reverse,
        (l.drop 90).reverse], none) ∧
    (l.drop 90).reverse ++ ((l.drop 60).take 30).reverse ++ ((l.drop 30).take 30).reverse ++
      (l.take 30).reverse = l.reverse := by
  have hpl : pageLimit = 30 := rfl
  have hs0 : pageSlice l none = (l.drop 0).take pageLimit := by
    rw [List.drop_zero]
    rfl
  have hj0 : 0 + pageLimit ≤ l.length := by rw [hlen, hpl]; omega
  have hj1 : pageLimit + pageLimit ≤ l.length := by rw [hlen, hpl]; omega
  have hj2 : pageLimit + pageLimit + pageLimit ≤ l.length := by rw [hlen, hpl]; omega
  obtain ⟨s1, h1, hp1, hl1⟩ := listMessagesPage_ok s uid cid none n1 l hpart hl
  set cu1 := (mkPage l none).nextCursor with hcu1
  obtain ⟨s2, h2, hp2, hl2⟩ := listMessagesPage_ok s1 uid cid cu1 n2 l hp1 hl1
  set cu2 := (mkPage l cu1).nextCursor with hcu2
  obtain ⟨s3, h3, hp3, hl3⟩ := listMessagesPage_ok s2 uid cid cu2 n3 l hp2 hl2
  set cu3 := (mkPage l cu2).nextCursor with hcu3
  obtain ⟨s4, h4, hp4, hl4⟩ := listMessagesPage_ok s3 uid cid cu3 n4 l hp3 hl3
  have hc1v : cu1 = (((l.drop 0).take pageLimit).reverse.head?).map (fun m => m.id) := by
    rw [hcu1]
    exact mkPage_nextCursor_full l none 0 hs0 hj0
  have hs1v : pageSlice l cu1 = (l.drop pageLimit).take pageLimit := by
    rw [hc1v]
    have h := pageSlice_after l 0 hids hj0
    rw [Nat.zero_add] at h
    exact h
  have hc2v : cu2 = (((l.drop pageLimit).take pageLimit).reverse.head?).map
      (fun m => m.id) := by
    rw [hcu2]
    exact mkPage_nextCursor_full l cu1 pageLimit hs1v hj1
  have hs2v : pageSlice l cu2 = (l.drop (pageLimit + pageLimit)).take pageLimit := by
    rw [hc2v]
    exact pageSlice_after l pageLimit hids hj1
  have hc3v : cu3 = (((l.drop (pageLimit + pageLimit)).take pageLimit).reverse.head?).map
      (fun m => m.id) := by
    rw [hcu3]
    exact mkPage_nextCursor_full l cu2 (pageLimit + pageLimit) hs2v hj2
  have hs3v : pageSlice l cu3 = (l.drop (pageLimit + pageLimit + pageLimit)).take
      pageLimit := by
    rw [hc3v]
    exact pageSlice_after l (pageLimit + pageLimit) hids hj2
  have hs3f : pageSlice l cu3 = l.drop (pageLimit + pageLimit + pageLimit) := by
    rw [hs3v]
    apply List.take_of_length_le
    rw [List.length_drop, hlen, hpl]
    omega
  have hc4v : (mkPage l cu3).nextCursor = none := by
    simp only [mkPage, hs3f]
    have hlen4 : (l.drop (pageLimit + pageLimit + pageLimit)).reverse.length = 10 := by
      rw [List.length_reverse, List.length_drop, hlen, hpl]
    rw [hlen4]
    simp [hpl]
  have hm1 : (mkPage l none).pageMessages = (l.take pageLimit).reverse := by
    simp only [mkPage]
    rfl
  have hm2 : (mkPage l cu1).pageMessages = ((l.drop pageLimit).take pageLimit).reverse := by
    simp only [mkPage]
    rw [hs1v]
  have hm3 : (mkPage l cu2).pageMessages =
      ((l.drop (pageLimit + pageLimit)).take pageLimit).reverse := by
    simp only [mkPage]
    rw [hs2v]
  have hm4 : (mkPage l cu3).pageMessages =
      (l.drop (pageLimit + pageLimit + pageLimit)).reverse := by
    simp only [mkPage]
    rw [hs3f]
  have hchain : chainedPages uid cid s none [n1, n2, n3, n4] =
      ([(l.take pageLimit).reverse, ((l.drop pageLimit).take pageLimit).reverse,
        ((l.drop (pageLimit + pageLimit)).take pageLimit).reverse,
        (l.drop (pageLimit + pageLimit + pageLimit)).reverse], none) := by
    simp only [chainedPages, h1]
    rw [← hcu1]
    simp only [h2]
    rw [← hcu2]
    simp only [h3]
    rw [← hcu3]
    simp only [h4]
    rw [hm1, hm2, hm3, hm4, hc4v]
  have hsplit : l = l.take pageLimit ++ ((l.drop pageLimit).take pageLimit ++
      ((l.drop (pageLimit + pageLimit)).take pageLimit ++
        l.drop (pageLimit + pageLimit + pageLimit))) := by
    conv_lhs => rw [← List.take_append_drop pageLimit l]
    congr 1
    conv_lhs => rw [← List.take_append_drop pageLimit (l.drop pageLimit)]
    rw [List.drop_drop]
    congr 1
    conv_lhs => rw [← List.take_append_drop pageLimit (l.drop (pageLimit + pageLimit))]
    rw [List.drop_drop]
  have hfinal2 : (l.drop (pageLimit + pageLimit + pageLimit)).reverse ++
      ((l.drop (pageLimit + pageLimit)).take pageLimit).reverse ++
      ((l.drop pageLimit).take pageLimit).reverse ++ (l.take pageLimit).reverse =
      l.reverse := by
    conv_rhs => rw [hsplit, List.reverse_append, List.reverse_append, List.reverse_append]
  exact ⟨hchain, hfinal2⟩

/-- One hundred distinct live messages with descending creation timestamps. -/
def exMsgs100 : List Message := (List.range 100).map (fun i =>
  { id := i + 1, conversationId := 1, senderId := 2, content := none, type := .TEXT,
    fileUrl := none, fileName := none, createdAt := 200 - i, deletedAt := none,
    groupId := none })

/-- Two-user DM holding the 100 messages of `exMsgs100`. -/
def exState100 : State :=
  { conversations := [{ id := 1, isGroup := false, createdAt := 0, createdById := 1 }],
    participants := [⟨1, 1⟩, ⟨1, 2⟩],
    messages := exMsgs100,
    conversationHides := [], messageHides := [], messageReads := [] }

/-- Claim C8, witness: the four chained calls on the concrete 100-message DM. -/
theorem c8_chained_pagination_partitions_witness :
    chainedPages 1 1 exState100 none [11, 12, 13, 14] =
      ([(exMsgs100.take 30).reverse, ((exMsgs100.drop 30).take 30).reverse,
        ((exMsgs100.drop 60).take 30).reverse, (exMsgs100.drop 90).reverse], none) ∧
    (exMsgs100.drop 90).reverse ++ ((exMsgs100.drop 60).take 30).reverse ++
      ((exMsgs100.drop 30).take 30).reverse ++ (exMsgs100.take 30).reverse =
      exMsgs100.reverse :=
  c8_chained_pagination_partitions exState100 1 1 11 12 13 14 exMsgs100
    (by decide) (by decide) (by decide) (by decide)

end Chat
